import Mathlib

/-!
Shallow embedding of the asynchronous hook-event delivery subsystem of
`src/Utilities/PluginClient/PluginClient.cpp` (class `plugin::PluginClient`),
together with proofs of the specification's claims about it.

The delivery loop `PluginClient::AsyncSendThread_` is embedded as a pure
iteration function.  Everything the loop reads from its concurrent
environment — the atomic stop flag, the polled channel connectivity, the
approximate-size sample of the lock-free queue, and the gRPC status returned
by each unary RPC — is supplied as an oracle input (`IterInput`).  Everything
the loop does — logging, sleeping, dequeuing, invoking a dispatch-table
entry, bulk re-enqueuing — is recorded as an explicit `Action` trace, so that
the spec's temporal and error-handling claims become statements about the
trace and the resulting queue.
-/

namespace PluginClientModel

/-- Hook type tag of an event, `plugin::HookType` with members
`START`, `END`, `JOB_MONITOR` (order as listed in the spec's data model). -/
inductive HookType where
  | START
  | END
  | JOB_MONITOR
deriving DecidableEq, Repr

/-- The numeric value of the enum tag, used by the source as the index into
the dispatch-function array: `s_hook_dispatch_funcs_[size_t(e.type)]`. -/
def HookType.toIndex : HookType → Nat
  | .START => 0
  | .END => 1
  | .JOB_MONITOR => 2

/-- The fields of `crane::grpc::TaskInfo` the subsystem reads:
`EndHookAsync` uses `task.start_time().seconds()`.  A job id is kept so that
distinct jobs are distinct values. -/
structure TaskInfo where
  task_id : Nat
  start_time : Int
deriving DecidableEq, Repr

/-- One entry of the task list built by `EndHookAsync`: the copied task
together with the `elapsed_time` seconds written by
`task_it->mutable_elapsed_time()->set_seconds(...)`. -/
structure EndTaskEntry where
  task : TaskInfo
  elapsed_time : Int
deriving DecidableEq, Repr

/-- The polymorphic protobuf payload of a hook event, as a sum over the three
concrete request types (`StartHookRequest`, `EndHookRequest`,
`JobMonitorHookRequest`). -/
inductive Payload where
  | startReq (task_info_list : List TaskInfo)
  | endReq (task_info_list : List EndTaskEntry)
  | jobMonitorReq (task_id : Nat) (cgroup : String)
deriving DecidableEq, Repr

/-- `plugin::HookEvent`: a type tag plus an owning pointer to the payload.
`msg = none` models a null pointer, as in a default-constructed event. -/
structure HookEvent where
  type : HookType
  msg : Option Payload
deriving DecidableEq, Repr

/-- A default-constructed `HookEvent`, as produced by
`std::list<HookEvent> events; events.resize(approx_size)`: the first enum
value and a null message pointer. -/
def defaultHookEvent : HookEvent := ⟨HookType.START, none⟩

/-- The part of `grpc::Status` the loop inspects: `error_code()` (numeric)
and `error_message()`. -/
structure GrpcStatus where
  error_code : Nat
  error_message : String
deriving DecidableEq, Repr

/-- `grpc::Status::ok()`: true exactly when the code is `grpc::OK` (0). -/
def GrpcStatus.ok (s : GrpcStatus) : Bool := s.error_code == 0

/-- The numeric value of `grpc::UNAVAILABLE`. -/
def GRPC_UNAVAILABLE : Nat := 14

/-- The three member send functions that can sit in the dispatch table. -/
inductive SendFunc where
  | SendStartHook_
  | SendEndHook_
  | SendJobMonitorHook_
deriving DecidableEq, Repr

/-- Modelled from the spec: the dispatch table `s_hook_dispatch_funcs_` is
declared and initialized in the class header, which is not among the visible
sources; the spec describes it as a fixed mapping from each of the 3 hook
types to a send function (START to the start-hook sender, END to the
end-hook sender, JOB_MONITOR to the job-monitor sender), stored as an array
indexed by the numeric tag. -/
def s_hook_dispatch_funcs : List SendFunc :=
  [SendFunc.SendStartHook_, SendFunc.SendEndHook_, SendFunc.SendJobMonitorHook_]

/-- The array lookup `s_hook_dispatch_funcs_[size_t(e.type)]` performed by
the delivery loop. -/
def dispatchFunc (t : HookType) : SendFunc :=
  (s_hook_dispatch_funcs.get? t.toIndex).getD SendFunc.SendStartHook_

/-- The send function the spec says is registered for each hook type. -/
def registeredFor : HookType → SendFunc
  | .START => SendFunc.SendStartHook_
  | .END => SendFunc.SendEndHook_
  | .JOB_MONITOR => SendFunc.SendJobMonitorHook_

/-- Observable steps taken by one iteration of the delivery loop. -/
inductive Action where
  | logInfoConnected
  | logInfoNotConnected
  | sleepMs (ms : Nat)
  | dequeueBulk (count : Nat)
  | attemptSend (f : SendFunc) (e : HookEvent)
  | logTrace (t : HookType)
  | logError (t : HookType) (msg : String) (code : Nat)
  | enqueueBulk (es : List HookEvent)
deriving DecidableEq, Repr

/-- The events sent (dispatch-table invocations issued) in a trace, in
order. -/
def sentEvents : List Action → List HookEvent
  | [] => []
  | Action.attemptSend _ e :: rest => e :: sentEvents rest
  | _ :: rest => sentEvents rest

/-- The bulk re-enqueue operations in a trace, each with its event list, in
order. -/
def bulkEnqueued : List Action → List (List HookEvent)
  | [] => []
  | Action.enqueueBulk es :: rest => es :: bulkEnqueued rest
  | _ :: rest => bulkEnqueued rest

/-- The inner processing loop of `AsyncSendThread_` over the local working
list (`while (!events.empty()) { ... }`): dispatch the front event; on an ok
status log at trace level and pop; on a non-ok status log at error level,
and if the code is `grpc::UNAVAILABLE` bulk re-enqueue the whole remaining
list (front inclusive) and break, otherwise pop and continue.  Returns the
action trace and the list of events handed back to the queue. -/
def processEvents (statusOf : HookEvent → GrpcStatus) :
    List HookEvent → List Action × List HookEvent
  | [] => ([], [])
  | e :: rest =>
    let f := dispatchFunc e.type
    let status := statusOf e
    if status.ok then
      let r := processEvents statusOf rest
      (Action.attemptSend f e :: Action.logTrace e.type :: r.1, r.2)
    else if status.error_code = GRPC_UNAVAILABLE then
      ([Action.attemptSend f e,
        Action.logError e.type status.error_message status.error_code,
        Action.enqueueBulk (e :: rest)],
       e :: rest)
    else
      let r := processEvents statusOf rest
      (Action.attemptSend f e ::
        Action.logError e.type status.error_message status.error_code :: r.1,
       r.2)

/-- `std::list::resize` on a list of `HookEvent`: truncate to `n`, or pad
with default-constructed events up to `n`. -/
def listResize (l : List HookEvent) (n : Nat) : List HookEvent :=
  l.take n ++ List.replicate (n - l.length) defaultHookEvent

/-- `try_dequeue_bulk(events.begin(), approx)` writing the dequeued events
into the front slots of the pre-sized buffer. -/
def fillFront (buf dequeued : List HookEvent) : List HookEvent :=
  dequeued ++ buf.drop dequeued.length

/-- The working-list construction of the delivery loop: size a fresh local
list to the approximate-size hint, bulk-dequeue up to that many events into
it (the queue yields `queue.take approx`), then resize the list down to the
actually-dequeued count. -/
def dequeueIntoBuffer (queue : List HookEvent) (approx : Nat) : List HookEvent :=
  let buf := listResize [] approx
  let dequeued := queue.take approx
  listResize (fillFront buf dequeued) dequeued.length

/-- The values one iteration of `AsyncSendThread_` reads from its concurrent
environment: the atomic stop flag, the polled channel connectivity
(`WaitForConnected` with a 3000 ms deadline), the `size_approx()` sample,
and the gRPC status each dispatched RPC would return. -/
structure IterInput where
  stop : Bool
  connected : Bool
  approx : Nat
  statusOf : HookEvent → GrpcStatus

/-- The outcome of one iteration: whether the loop exited (stop flag
observed), the new previous-connectivity state, the new queue contents, and
the action trace. -/
structure IterResult where
  exited : Bool
  prev : Bool
  queue : List HookEvent
  actions : List Action
deriving Repr

/-- One iteration of the `while (true)` loop of `AsyncSendThread_`:
check the stop flag; poll connectivity and log the not-connected-to-connected
edge; if not connected, log and sleep 1 s and restart; if the size sample is
zero, sleep 100 ms and restart; otherwise bulk-dequeue into a working list
and run the inner processing loop, appending any re-enqueued tail behind
whatever remains in the queue. -/
def asyncSendIteration (inp : IterInput) (prev : Bool)
    (queue : List HookEvent) : IterResult :=
  if inp.stop then ⟨true, prev, queue, []⟩
  else
    let connLog : List Action :=
      if !prev && inp.connected then [Action.logInfoConnected] else []
    if !inp.connected then
      ⟨false, inp.connected, queue,
        connLog ++ [Action.logInfoNotConnected, Action.sleepMs 1000]⟩
    else if inp.approx = 0 then
      ⟨false, inp.connected, queue, connLog ++ [Action.sleepMs 100]⟩
    else
      let events := dequeueIntoBuffer queue inp.approx
      let rest := queue.drop inp.approx
      let r := processEvents inp.statusOf events
      ⟨false, inp.connected, rest ++ r.2,
        connLog ++ [Action.dequeueBulk events.length] ++ r.1⟩

/-- The loop state carried across iterations: `prev_conn_state`, the queue
contents, and whether the loop has exited. -/
structure LoopState where
  prev : Bool
  queue : List HookEvent
  exited : Bool
deriving Repr

/-- Run the delivery loop over a finite schedule of oracle inputs, one per
iteration.  Once the loop has exited it takes no further step and produces
no further action. -/
def runLoop : List IterInput → LoopState → LoopState × List Action
  | [], s => (s, [])
  | inp :: rest, s =>
    if s.exited then (s, [])
    else
      let r := asyncSendIteration inp s.prev s.queue
      let next := runLoop rest ⟨r.prev, r.queue, r.exited⟩
      (next.1, r.actions ++ next.2)

/-- `PluginClient::StartHookAsync`: build a `StartHookRequest` holding a
copy of each task and enqueue it as a START event. -/
def StartHookAsync (tasks : List TaskInfo) : HookEvent :=
  ⟨HookType.START, some (Payload.startReq tasks)⟩

/-- The task list built by `PluginClient::EndHookAsync`: `now` is
`absl::ToUnixSeconds(absl::Now())`, sampled once before the loop over the
batch; each task is copied and its `elapsed_time.seconds` set to
`now - task.start_time().seconds()`. -/
def endHookEntries (now : Int) (tasks : List TaskInfo) : List EndTaskEntry :=
  tasks.map (fun t => ⟨t, now - t.start_time⟩)

/-- `PluginClient::EndHookAsync`: wrap the built task list in an
`EndHookRequest` and enqueue it as an END event.  The wall-clock sample
`now` is taken exactly once per call and is therefore a single parameter. -/
def EndHookAsync (now : Int) (tasks : List TaskInfo) : HookEvent :=
  ⟨HookType.END, some (Payload.endReq (endHookEntries now tasks))⟩

/-- `PluginClient::JobMonitorHookAsync`: build a `JobMonitorHookRequest`
from the task id and cgroup path and enqueue it as a JOB_MONITOR event. -/
def JobMonitorHookAsync (task_id : Nat) (cgroup_path : String) : HookEvent :=
  ⟨HookType.JOB_MONITOR, some (Payload.jobMonitorReq task_id cgroup_path)⟩

/-- An always-ok gRPC status. -/
def okStatus : GrpcStatus := ⟨0, ""⟩

/-- Oracle input for an iteration during a transport outage. -/
def disconnectedInput : IterInput := ⟨false, false, 0, fun _ => okStatus⟩

/-- Oracle input for an iteration after connectivity is restored, with a
size sample of `n` and all sends succeeding. -/
def reconnectInput (n : Nat) : IterInput := ⟨false, true, n, fun _ => okStatus⟩

/-! ## Lemmas about the inner processing loop -/

/-- `sentEvents` distributes over trace concatenation. -/
theorem sentEvents_append (a b : List Action) :
    sentEvents (a ++ b) = sentEvents a ++ sentEvents b := by
  induction a with
  | nil => rfl
  | cons x xs ih => cases x <;> simp [sentEvents, ih]

/-- `bulkEnqueued` distributes over trace concatenation. -/
theorem bulkEnqueued_append (a b : List Action) :
    bulkEnqueued (a ++ b) = bulkEnqueued a ++ bulkEnqueued b := by
  induction a with
  | nil => rfl
  | cons x xs ih => cases x <;> simp [bulkEnqueued, ih]

/-- The events the inner loop hands back to the queue are a suffix of the
working list. -/
theorem processEvents_requeued_suffix (s : HookEvent → GrpcStatus)
    (l : List HookEvent) : ∃ pre, l = pre ++ (processEvents s l).2 := by
  induction l with
  | nil => exact ⟨[], rfl⟩
  | cons e rest ih =>
    by_cases h : (s e).ok = true
    · obtain ⟨pre, hp⟩ := ih
      exact ⟨e :: pre, by simp [processEvents, h, ← hp]⟩
    · by_cases h14 : (s e).error_code = GRPC_UNAVAILABLE
      · exact ⟨[], by simp [processEvents, h, h14]⟩
      · obtain ⟨pre, hp⟩ := ih
        exact ⟨e :: pre, by simp [processEvents, h, h14, ← hp]⟩

/-- Partition identity for one inner loop run: the events attempted,
followed by the requeued events other than the failed front one, are exactly
the working list.  Hence every event of the working list receives exactly
one disposition. -/
theorem processEvents_partition (s : HookEvent → GrpcStatus)
    (l : List HookEvent) :
    sentEvents (processEvents s l).1 ++ (processEvents s l).2.drop 1 = l := by
  induction l with
  | nil => rfl
  | cons e rest ih =>
    by_cases h : (s e).ok = true
    · simpa [processEvents, h, sentEvents, List.drop_one] using ih
    · by_cases h14 : (s e).error_code = GRPC_UNAVAILABLE
      · simp [processEvents, h, h14, sentEvents]
      · simpa [processEvents, h, h14, sentEvents, List.drop_one] using ih

/-- The inner loop issues at most one bulk re-enqueue, and its contents are
exactly the requeued suffix. -/
theorem processEvents_bulk (s : HookEvent → GrpcStatus) (l : List HookEvent) :
    bulkEnqueued (processEvents s l).1 =
      (if (processEvents s l).2.isEmpty then [] else [(processEvents s l).2]) := by
  induction l with
  | nil => rfl
  | cons e rest ih =>
    by_cases h : (s e).ok = true
    · simp [processEvents, h, bulkEnqueued, ih]
    · by_cases h14 : (s e).error_code = GRPC_UNAVAILABLE
      · simp [processEvents, h, h14, bulkEnqueued]
      · simp [processEvents, h, h14, bulkEnqueued, ih]

/-- Every dispatch in an inner loop run uses the table entry indexed by the
event's own type tag. -/
theorem processEvents_attempt_dispatch (s : HookEvent → GrpcStatus)
    (l : List HookEvent) (f : SendFunc) (e : HookEvent)
    (h : Action.attemptSend f e ∈ (processEvents s l).1) :
    f = dispatchFunc e.type := by
  induction l with
  | nil => simp [processEvents] at h
  | cons x rest ih =>
    by_cases hx : (s x).ok = true
    · simp [processEvents, hx] at h
      rcases h with ⟨rfl, rfl⟩ | h
      · rfl
      · exact ih h
    · by_cases h14 : (s x).error_code = GRPC_UNAVAILABLE
      · simp [processEvents, hx, h14] at h
        obtain ⟨rfl, rfl⟩ := h
        rfl
      · simp [processEvents, hx, h14] at h
        rcases h with ⟨rfl, rfl⟩ | h
        · rfl
        · exact ih h

/-- The array lookup agrees with the spec's per-type registration. -/
theorem dispatchFunc_eq_registeredFor (t : HookType) :
    dispatchFunc t = registeredFor t := by
  cases t <;> rfl

/-- If every status of the working list is ok, the inner loop sends every
event in order and requeues nothing. -/
theorem processEvents_all_ok (s : HookEvent → GrpcStatus) (l : List HookEvent)
    (h : ∀ e ∈ l, (s e).ok = true) :
    sentEvents (processEvents s l).1 = l ∧ (processEvents s l).2 = [] := by
  induction l with
  | nil => exact ⟨rfl, rfl⟩
  | cons e rest ih =>
    have he : (s e).ok = true := h e (by simp)
    have ih' := ih (fun x hx => h x (by simp [hx]))
    refine ⟨?_, ?_⟩
    · simp [processEvents, he, sentEvents, ih'.1]
    · simp [processEvents, he, ih'.2]

/-! ## Concrete events and statuses used by witnesses -/

/-- A concrete START event. -/
def ev1 : HookEvent := ⟨HookType.START, some (Payload.startReq [⟨1, 0⟩])⟩

/-- A concrete END event. -/
def ev2 : HookEvent := ⟨HookType.END, some (Payload.endReq [⟨⟨2, 0⟩, 5⟩])⟩

/-- A concrete JOB_MONITOR event. -/
def ev3 : HookEvent := ⟨HookType.JOB_MONITOR, some (Payload.jobMonitorReq 3 "cg")⟩

/-- A stub behavior that fails `ev2` with `grpc::UNAVAILABLE` and accepts
everything else. -/
def statusUnavailAt2 : HookEvent → GrpcStatus :=
  fun e => if e = ev2 then ⟨14, "transport unavailable"⟩ else okStatus

/-- A stub behavior that rejects `ev2` with a non-transport error code and
accepts everything else. -/
def statusErrAt2 : HookEvent → GrpcStatus :=
  fun e => if e = ev2 then ⟨3, "invalid argument"⟩ else okStatus

/-- A stub behavior that accepts every event. -/
def statusAllOk : HookEvent → GrpcStatus := fun _ => okStatus

/-! ## Claims about the inner processing loop -/

/-- Claim C1: when the send of the event at the front of the working list
fails with `grpc::UNAVAILABLE`, the whole remaining working list — the
failed event included — is pushed back onto the queue as one bulk
re-enqueue preserving relative order, and the inner loop stops immediately:
events after the failed one are not attempted in that iteration. -/
theorem claim1_unavailable_bulk_requeue (s : HookEvent → GrpcStatus)
    (pre post : List HookEvent) (e : HookEvent)
    (hpre : ∀ x ∈ pre, (s x).ok = true)
    (he : (s e).error_code = GRPC_UNAVAILABLE) :
    (processEvents s (pre ++ e :: post)).2 = e :: post ∧
    sentEvents (processEvents s (pre ++ e :: post)).1 = pre ++ [e] ∧
    bulkEnqueued (processEvents s (pre ++ e :: post)).1 = [e :: post] := by
  induction pre with
  | nil =>
    have hok : ¬((s e).ok = true) := by
      simp [GrpcStatus.ok, he, GRPC_UNAVAILABLE]
    refine ⟨?_, ?_, ?_⟩ <;> simp [processEvents, hok, he, sentEvents, bulkEnqueued]
  | cons x xs ih =>
    have hx : (s x).ok = true := hpre x (by simp)
    have ih' := ih (fun y hy => hpre y (by simp [hy]))
    refine ⟨?_, ?_, ?_⟩ <;>
      simp [processEvents, hx, sentEvents, bulkEnqueued, ih'.1, ih'.2.1, ih'.2.2]

/-- Witness for C1 at the spec's own example `[e1, e2, e3]` with `e2`
failing transiently: the requeued remainder is `[e2, e3]` with `e2` before
`e3`, sent attempts stop at `e2`, and there is exactly one bulk
re-enqueue. -/
theorem claim1_witness :
    (processEvents statusUnavailAt2 [ev1, ev2, ev3]).2 = [ev2, ev3] ∧
    sentEvents (processEvents statusUnavailAt2 [ev1, ev2, ev3]).1 = [ev1, ev2] ∧
    bulkEnqueued (processEvents statusUnavailAt2 [ev1, ev2, ev3]).1 = [[ev2, ev3]] :=
  claim1_unavailable_bulk_requeue statusUnavailAt2 [ev1] [ev3] ev2
    (by decide) (by decide)

/-- Claim C2: a send failure with any status other than `grpc::UNAVAILABLE`
is logged at error level with the hook type, the error text and the status
code, the event is dropped (the requeued set is exactly that of the rest of
the list, so this event is never re-enqueued), and processing continues with
the next event of the working list in the same iteration. -/
theorem claim2_other_error_drop (s : HookEvent → GrpcStatus) (e : HookEvent)
    (rest : List HookEvent)
    (hok : ¬((s e).ok = true)) (hne : ¬((s e).error_code = GRPC_UNAVAILABLE)) :
    processEvents s (e :: rest) =
      (Action.attemptSend (dispatchFunc e.type) e ::
        Action.logError e.type (s e).error_message (s e).error_code ::
        (processEvents s rest).1,
       (processEvents s rest).2) := by
  simp [processEvents, hok, hne]

/-- Witness for C2: a non-transport rejection of `ev2` is logged and
dropped while `ev3` is still processed in the same iteration. -/
theorem claim2_witness :
    processEvents statusErrAt2 [ev2, ev3] =
      (Action.attemptSend (dispatchFunc HookType.END) ev2 ::
        Action.logError HookType.END "invalid argument" 3 ::
        (processEvents statusErrAt2 [ev3]).1,
       (processEvents statusErrAt2 [ev3]).2) :=
  claim2_other_error_drop statusErrAt2 ev2 [ev3] (by decide) (by decide)

/-- Claim C5: dispatching an event always invokes the send function
registered in the dispatch table for that event's own type tag (START to
the start sender, END to the end sender, JOB_MONITOR to the job-monitor
sender), and the registration is injective, so a function registered for a
different type is never invoked. -/
theorem claim5_no_cross_type (s : HookEvent → GrpcStatus) (l : List HookEvent)
    (f : SendFunc) (e : HookEvent)
    (hmem : Action.attemptSend f e ∈ (processEvents s l).1) :
    f = registeredFor e.type ∧
    (∀ t t', registeredFor t = registeredFor t' → t = t') := by
  constructor
  · exact (processEvents_attempt_dispatch s l f e hmem).trans
      (dispatchFunc_eq_registeredFor e.type)
  · intro t t' h
    cases t <;> cases t' <;> simp_all [registeredFor]

/-- Witness for C5 at a concrete working list: the START event is dispatched
through the function registered for START. -/
theorem claim5_witness :
    SendFunc.SendStartHook_ = registeredFor ev1.type ∧
    (∀ t t', registeredFor t = registeredFor t' → t = t') :=
  claim5_no_cross_type statusAllOk [ev1] SendFunc.SendStartHook_ ev1 (by decide)

/-- Claim C10: within one iteration every event of the working list receives
exactly one disposition — the requeued events are a suffix of the working
list, the attempted events followed by the requeued events minus the failed
front one reconstitute the working list exactly, and the requeued suffix is
re-enqueued exactly once as a single bulk operation (none when nothing is
requeued) — so no event is both re-enqueued and dispatched again or
discarded in the same iteration. -/
theorem claim10_single_disposition (s : HookEvent → GrpcStatus)
    (l : List HookEvent) :
    (∃ pre, l = pre ++ (processEvents s l).2) ∧
    sentEvents (processEvents s l).1 ++ (processEvents s l).2.drop 1 = l ∧
    bulkEnqueued (processEvents s l).1 =
      (if (processEvents s l).2.isEmpty then [] else [(processEvents s l).2]) :=
  ⟨processEvents_requeued_suffix s l, processEvents_partition s l,
    processEvents_bulk s l⟩

/-! ## Lemmas about the loop iteration and the working-list buffer -/

/-- The resize-dequeue-resize dance of the loop yields exactly the dequeued
events: padding default-constructed events never survive the final
truncation. -/
theorem dequeueIntoBuffer_eq_take (q : List HookEvent) (approx : Nat) :
    dequeueIntoBuffer q approx = q.take approx := by
  have hlen : (q.take approx).length ≤ approx := List.length_take_le approx q
  simp [dequeueIntoBuffer, listResize, fillFront, List.take_left,
    Nat.sub_eq_zero_of_le, hlen]

/-- A disconnected iteration only logs and sleeps: the loop state and queue
are untouched. -/
theorem disconnected_iteration (prev : Bool) (approx : Nat)
    (s : HookEvent → GrpcStatus) (q : List HookEvent) :
    asyncSendIteration ⟨false, false, approx, s⟩ prev q =
      ⟨false, false, q, [Action.logInfoNotConnected, Action.sleepMs 1000]⟩ := by
  cases prev <;> rfl

/-- The inner processing loop never emits a connectivity log line. -/
theorem processEvents_no_conn_log (s : HookEvent → GrpcStatus)
    (l : List HookEvent) :
    Action.logInfoConnected ∉ (processEvents s l).1 ∧
    Action.logInfoNotConnected ∉ (processEvents s l).1 := by
  induction l with
  | nil => simp [processEvents]
  | cons e rest ih =>
    by_cases h : (s e).ok = true
    · simp [processEvents, h, ih.1, ih.2]
    · by_cases h14 : (s e).error_code = GRPC_UNAVAILABLE
      · simp [processEvents, h, h14]
      · simp [processEvents, h, h14, ih.1, ih.2]

/-- A connected iteration with a size sample equal to the queue length and
an always-ok stub drains the queue and sends every queued event in order. -/
theorem reconnect_iteration (prev : Bool) (q : List HookEvent) :
    (asyncSendIteration (reconnectInput q.length) prev q).queue = [] ∧
    sentEvents (asyncSendIteration (reconnectInput q.length) prev q).actions = q ∧
    (asyncSendIteration (reconnectInput q.length) prev q).exited = false := by
  have hall := processEvents_all_ok (fun _ => okStatus) q (fun e _ => rfl)
  by_cases hq : q.length = 0
  · have hnil : q = [] := List.length_eq_zero.mp hq
    subst hnil
    cases prev <;> simp [asyncSendIteration, reconnectInput, sentEvents]
  · have hbuf : dequeueIntoBuffer q q.length = q := by
      rw [dequeueIntoBuffer_eq_take, List.take_length]
    cases prev <;>
      simp [asyncSendIteration, reconnectInput, hq, hbuf, sentEvents_append,
        sentEvents, hall.1, hall.2]

/-- Running the loop from a disconnected iteration: the queue passes through
unchanged and only the log and backoff-sleep actions are prepended. -/
theorem runLoop_disconnected_step (prev : Bool) (q : List HookEvent)
    (rest : List IterInput) :
    runLoop (disconnectedInput :: rest) ⟨prev, q, false⟩ =
      ((runLoop rest ⟨false, q, false⟩).1,
        Action.logInfoNotConnected :: Action.sleepMs 1000 ::
          (runLoop rest ⟨false, q, false⟩).2) := by
  have hd := disconnected_iteration prev 0 (fun _ => okStatus) q
  simp [runLoop, disconnectedInput, hd]

/-! ## Claims about the loop iteration, shutdown and delivery -/

/-- Counterexample to claim C3 as stated: an iteration whose polled state
equals the previous polled state (steady not-connected: previous false,
polled false — no transition edge) still produces a log line, namely the
not-connected informational log emitted before the reconnect backoff. -/
theorem claim3_counterexample :
    (asyncSendIteration ⟨false, false, 0, statusAllOk⟩ false []).actions =
      [Action.logInfoNotConnected, Action.sleepMs 1000] := rfl

/-- Claim C3 amended: the connected informational log is emitted exactly on
the false-to-true edge of the polled state, but the not-connected log is
emitted on every iteration whose poll reports not-connected — steady
not-connected iterations also log; only steady connected iterations produce
no connectivity log signal. -/
theorem claim3_amended_log_characterization (prev connected : Bool)
    (approx : Nat) (s : HookEvent → GrpcStatus) (q : List HookEvent) :
    ((Action.logInfoConnected ∈
        (asyncSendIteration ⟨false, connected, approx, s⟩ prev q).actions) ↔
      (prev = false ∧ connected = true)) ∧
    ((Action.logInfoNotConnected ∈
        (asyncSendIteration ⟨false, connected, approx, s⟩ prev q).actions) ↔
      connected = false) := by
  cases prev <;> cases connected
  · simp [asyncSendIteration]
  · by_cases ha : approx = 0
    · simp [asyncSendIteration, ha]
    · simp [asyncSendIteration, ha, (processEvents_no_conn_log s _).1,
        (processEvents_no_conn_log s _).2]
  · simp [asyncSendIteration]
  · by_cases ha : approx = 0
    · simp [asyncSendIteration, ha]
    · simp [asyncSendIteration, ha, (processEvents_no_conn_log s _).1,
        (processEvents_no_conn_log s _).2]

/-- Claim C4: `EndHookAsync` samples the wall clock once per call (the
single parameter `now`), and every job of the batch is transmitted with an
elapsed-time field equal to exactly `now - job.start_time`, all jobs of the
call sharing that one `now`; the enqueued event is an END event carrying
the built task list. -/
theorem claim4_elapsed_time (now : Int) (tasks : List TaskInfo) :
    (EndHookAsync now tasks).type = HookType.END ∧
    (EndHookAsync now tasks).msg =
      some (Payload.endReq (endHookEntries now tasks)) ∧
    (endHookEntries now tasks).map EndTaskEntry.task = tasks ∧
    (∀ en ∈ endHookEntries now tasks,
      en.elapsed_time = now - en.task.start_time) := by
  refine ⟨rfl, rfl, ?_, ?_⟩
  · simp [endHookEntries, Function.comp_def]
  · intro en hen
    simp [endHookEntries] at hen
    obtain ⟨t, _, rfl⟩ := hen
    rfl

/-- Witness for C4: a job with start time 3 enqueued when the clock reads 10
is transmitted with elapsed time `10 - 3`. -/
theorem claim4_witness :
    (⟨⟨7, 3⟩, 10 - 3⟩ : EndTaskEntry).elapsed_time =
      10 - (⟨⟨7, 3⟩, 10 - 3⟩ : EndTaskEntry).task.start_time :=
  (claim4_elapsed_time 10 [⟨7, 3⟩]).2.2.2 ⟨⟨7, 3⟩, 10 - 3⟩ (by decide)

/-- Claim C6: once the stop flag is observed the loop exits in that very
iteration, performing no action at all — no dequeue and no send — even when
events remain queued; and running the loop from an already-exited state is a
no-op, so the blocking join tolerates the loop having exited on its own. -/
theorem claim6_shutdown (inp : IterInput) (inputs : List IterInput)
    (prev : Bool) (q : List HookEvent) (hstop : inp.stop = true) :
    runLoop (inp :: inputs) ⟨prev, q, false⟩ = (⟨prev, q, true⟩, []) ∧
    runLoop inputs ⟨prev, q, true⟩ = (⟨prev, q, true⟩, []) := by
  have h2 : runLoop inputs ⟨prev, q, true⟩ = (⟨prev, q, true⟩, []) := by
    cases inputs <;> simp [runLoop]
  refine ⟨?_, h2⟩
  simp [runLoop, asyncSendIteration, hstop, h2]

/-- Witness for C6: with an event still queued, a connected transport and a
nonzero size sample, an iteration that observes the stop flag produces no
action and later runs are no-ops. -/
theorem claim6_witness :
    runLoop [⟨true, true, 1, statusAllOk⟩] ⟨false, [ev1], false⟩ =
      (⟨false, [ev1], true⟩, []) ∧
    runLoop [] ⟨false, [ev1], true⟩ = (⟨false, [ev1], true⟩, []) :=
  claim6_shutdown ⟨true, true, 1, statusAllOk⟩ [] false [ev1] rfl

/-- Claim C7: an iteration whose connectivity poll reports not-connected
performs no dequeue and no send — its entire action trace is the
informational log followed by the fixed 1000 ms backoff sleep — leaves the
queue untouched, and does not exit, so the loop restarts with a fresh
poll. -/
theorem claim7_disconnected_backoff (prev : Bool) (approx : Nat)
    (s : HookEvent → GrpcStatus) (q : List HookEvent) :
    asyncSendIteration ⟨false, false, approx, s⟩ prev q =
      ⟨false, false, q, [Action.logInfoNotConnected, Action.sleepMs 1000]⟩ :=
  disconnected_iteration prev approx s q

/-- Claim C8: events sitting in the queue while the transport is down are
not dropped by disconnection — after any number of disconnected iterations
followed by a reconnected iteration in which no send is rejected, every
queued event has been sent exactly once (the multiset of dispatched events
is exactly the original queue, in order) and the queue is empty. -/
theorem claim8_at_least_once (q : List HookEvent) (n : Nat) (prev : Bool) :
    (runLoop (List.replicate n disconnectedInput ++ [reconnectInput q.length])
        ⟨prev, q, false⟩).1.queue = [] ∧
    sentEvents
      (runLoop (List.replicate n disconnectedInput ++ [reconnectInput q.length])
        ⟨prev, q, false⟩).2 = q := by
  induction n generalizing prev with
  | zero =>
    have h := reconnect_iteration prev q
    refine ⟨?_, ?_⟩
    · simp [runLoop, h.1]
    · simp [runLoop, sentEvents_append, h.2.1]
  | succ m ih =>
    have ih' := ih false
    rw [List.replicate_succ, List.cons_append, runLoop_disconnected_step]
    refine ⟨ih'.1, ?_⟩
    simp [sentEvents]
    exact ih'.2

/-- Claim C9: when the bulk dequeue returns fewer events than the
approximate-size hint, the final resize truncates the working list to the
actually-dequeued count, so the working list is exactly the dequeued prefix
of the queue — of length `min approx (queue length)` — and no
default-constructed event with a null payload survives into dispatch. -/
theorem claim9_truncate_to_actual (q : List HookEvent) (approx : Nat) :
    dequeueIntoBuffer q approx = q.take approx ∧
    (dequeueIntoBuffer q approx).length = min approx q.length := by
  refine ⟨dequeueIntoBuffer_eq_take q approx, ?_⟩
  rw [dequeueIntoBuffer_eq_take]
  exact List.length_take approx q

end PluginClientModel
